import Mathlib

/-!
Verification of the polling-and-dispatch engine in `scripts/convex_agent.py`.

The Python source is shallowly embedded below: pure helper functions become
Lean functions over `String` / `List Char`, the per-record dispatcher body of
`run_agent` becomes an explicit state-passing step function, and fallible
operations return `Option`.  Timestamps (Python floats, milliseconds since
the epoch) are modelled as exact rationals `ℚ`; local calendar arithmetic
(`datetime`) is modelled with explicit Gregorian civil-date conversions and
a fixed-offset timezone given in minutes (DST transitions are outside the
scope of every claim checked here).
-/

namespace ConvexAgent

/-! ### String utilities

Python's `k in haystack` substring test and `str.lower()` (all strings in
the claims are ASCII, where `Char.toLower` agrees with Python). -/

/-- Bool-valued substring test on character lists: does `needle` occur as a
contiguous segment of `hay`?  Mirrors Python's `needle in hay`. -/
def containsSub (hay needle : List Char) : Bool :=
  needle.isPrefixOf hay ||
    match hay with
    | [] => false
    | _ :: t => containsSub t needle

/-- Python `needle in hay` on strings. -/
def strContains (hay needle : String) : Bool :=
  containsSub hay.data needle.data

/-- Python `str.lower()` (ASCII, where `Char.toLower` agrees). -/
def lowerStr (s : String) : String :=
  String.mk (s.data.map Char.toLower)

/-- Python `str.strip()` (leading/trailing whitespace removed). -/
def pyStrip (s : String) : String :=
  String.mk (((s.data.dropWhile Char.isWhitespace).reverse.dropWhile Char.isWhitespace).reverse)

/-! ### The Record data model

`Record` mirrors the JSON memory object: `_id` (string, possibly absent or
non-string — both fail the code's `isinstance(memory_id, str)` test and are
modelled as `none`), `createdAt` (numeric ms, possibly absent), the free
text fields and the list-valued fields. -/

structure Record where
  id : Option String
  createdAt : Option ℚ
  summary : String
  rawText : String
  topics : List String
  tasks : List String
  people : List String
deriving DecidableEq, Repr

/-! ### Classifier (`is_meeting_memory`, `is_goal_memory`, lines 105-141) -/

def meeting_keywords : List String :=
  ["meeting", "call", "sync", "standup", "interview"]

def goal_keywords : List String :=
  ["goal", "goals", "get better", "improve", "practice", "train", "learn",
   "want to", "plan to", "trying to"]

/-- Haystack built by `is_meeting_memory` (line 108):
`" ".join([summary.lower(), rawText.lower(), " ".join(topics)])` where each
topic is lowercased.  Note: `tasks` and `people` are NOT consulted. -/
def meetingHaystack (m : Record) : String :=
  lowerStr m.summary ++ " " ++ lowerStr m.rawText ++ " " ++
    String.intercalate " " (m.topics.map lowerStr)

/-- Haystack built by `is_goal_memory` (line 133): summary, rawText, topics
and tasks.  `people` is NOT consulted. -/
def goalHaystack (m : Record) : String :=
  lowerStr m.summary ++ " " ++ lowerStr m.rawText ++ " " ++
    String.intercalate " " (m.topics.map lowerStr) ++ " " ++
    String.intercalate " " (m.tasks.map lowerStr)

def is_meeting_memory (m : Record) : Bool :=
  meeting_keywords.any fun k => strContains (meetingHaystack m) k

def is_goal_memory (m : Record) : Bool :=
  goal_keywords.any fun k => strContains (goalHaystack m) k

/-- Modelled from the spec: the claim's haystack, "the concatenation of the
record's text fields (summary, raw text) and all of its list-valued fields
(topics, tasks, people)", lowercased.  Used only to compare the claim's
classifier with the one embedded from the source. -/
def spec_full_haystack (m : Record) : String :=
  lowerStr m.summary ++ " " ++ lowerStr m.rawText ++ " " ++
    String.intercalate " " (m.topics.map lowerStr) ++ " " ++
    String.intercalate " " (m.tasks.map lowerStr) ++ " " ++
    String.intercalate " " (m.people.map lowerStr)

/-- Modelled from the spec: a category (given by its keyword list) matches
iff some keyword occurs in the full haystack including tasks and people. -/
def spec_category_matches (keywords : List String) (m : Record) : Bool :=
  keywords.any fun k => strContains (spec_full_haystack m) k

/-! ### Goal focus extraction (`extract_goal_focus`, lines 144-157)

The four regexes are written in the source as RAW Python strings, e.g.
`r"improve (?:my|at)?\\s*([a-zA-Z0-9 \\-]+)"`.  In a raw string `\\` is a
literal backslash-backslash, which the regex engine reads as an escaped
literal backslash — NOT as the whitespace class `\s`.  Inside the character
class this adds a (harmless) literal backslash; in the second pattern it
makes the pattern demand a literal backslash character in the text after
`improve (my|at)?`.  The embedding reproduces this exactly. -/

/-- Character class `[a-zA-Z0-9 \\-]`: ASCII letters, digits, space, a
literal backslash and a hyphen. -/
def inCls (c : Char) : Bool :=
  c.isAlpha || c.isDigit || c == ' ' || c == '\\' || c == '-'

/-- Python `re.search`: try the position matcher `f` at every suffix, leftmost
position first (also at the empty suffix, as `re` does). -/
def scanFirst {α : Type} (f : List Char → Option α) : List Char → Option α
  | [] => f []
  | c :: rest =>
    match f (c :: rest) with
    | some r => some r
    | none => scanFirst f rest

/-- Position matcher for the patterns of shape `lit([a-zA-Z0-9 \\-]+)`:
the literal `lit`, then a greedy non-empty run of class characters (the
capture group). -/
def litCapAt (lit : List Char) (l : List Char) : Option (List Char) :=
  if lit.isPrefixOf l then
    let cap := (l.drop lit.length).takeWhile inCls
    if cap.isEmpty then none else some cap
  else none

/-- Position matcher for `improve (?:my|at)?\\s*([a-zA-Z0-9 \\-]+)` with the
raw-string reading: `improve `, an optional `my`/`at` (alternatives tried in
that order, then the empty option), a LITERAL backslash, a greedy run of the
letter `s`, then the non-empty capture group.  Because `s` is itself in the
capture class, the engine backtracks the `s*` run by one character when
nothing else is left for the group. -/
def improveAt (l : List Char) : Option (List Char) :=
  if ("improve ".data).isPrefixOf l then
    let rest := l.drop 8
    let tryBranch : List Char → Option (List Char) := fun br =>
      if br.isPrefixOf rest then
        match rest.drop br.length with
        | '\\' :: r3 =>
          let full := r3.takeWhile inCls
          if full.isEmpty then none
          else
            let sRun := (full.takeWhile (fun c => c == 's')).length
            if sRun < full.length then some (full.drop sRun)
            else some (full.drop (full.length - 1))
        | _ => none
      else none
    match tryBranch "my".data with
    | some cap => some cap
    | none =>
      match tryBranch "at".data with
      | some cap => some cap
      | none => tryBranch []
  else none

/-- Python `str.strip(" .,!?:;")`. -/
def stripPunct (l : List Char) : List Char :=
  let p : Char → Bool := fun c =>
    c == ' ' || c == '.' || c == ',' || c == '!' || c == '?' || c == ':' || c == ';'
  ((l.dropWhile p).reverse.dropWhile p).reverse

/-- Embeds `extract_goal_focus` (lines 144-157): lowercase the text, try the four
patterns in order with `re.search`, return the stripped first capture, or
`"your goal"` when no pattern matches. -/
def extract_goal_focus (text : String) : String :=
  let low := (lowerStr text).data
  match scanFirst (litCapAt "get better at ".data) low with
  | some cap => String.mk (stripPunct cap)
  | none =>
    match scanFirst improveAt low with
    | some cap => String.mk (stripPunct cap)
    | none =>
      match scanFirst (litCapAt "learn ".data) low with
      | some cap => String.mk (stripPunct cap)
      | none =>
        match scanFirst (litCapAt "practice ".data) low with
        | some cap => String.mk (stripPunct cap)
        | none => "your goal"

/-! ### Goal coaching strategy (lines 160-251) -/

/-- The structured content produced for the goal category (the JSON shape
`{has_goal, goal, suggestions[], weekly_plan[], first_step}` plus the
`source` tag added by the strategy). -/
structure GoalPayload where
  has_goal : Bool
  goal : String
  suggestions : List String
  weekly_plan : List String
  first_step : String
  source : String
deriving DecidableEq, Repr

/-- Embeds `fallback_goal_suggestions` (lines 209-241). -/
def fallback_goal_suggestions (m : Record) : GoalPayload :=
  let goal_focus := extract_goal_focus m.rawText
  let base :=
    ["Define a 4-week target for " ++ goal_focus ++ " with a measurable result.",
     "Schedule 3 focused practice sessions each week for " ++ goal_focus ++ ".",
     "After each session, record one thing that improved and one thing to fix.",
     "Review progress weekly and adjust drills based on your weakest area."]
  { has_goal := true
    goal := if goal_focus ≠ "your goal" then goal_focus else m.summary
    suggestions :=
      if m.tasks.isEmpty then base
      else base ++
        ["Tie this plan to existing tasks: " ++
          String.intercalate ", " (m.tasks.take 3) ++ "."]
    weekly_plan :=
      ["Week 1: baseline assessment and technique focus",
       "Week 2: repetition drills and consistency",
       "Week 3: simulate real conditions and track outcomes",
       "Week 4: review metrics and set next target"]
    first_step := "Block your first 45-minute practice session for " ++
      goal_focus ++ " in your calendar today."
    source := "fallback" }

/-- Embeds `call_openai_goal_suggestions` (lines 160-206): raises when the stripped
credential is empty (`if not api_key`); otherwise the remote interaction is abstracted by the
ambient outcome `remote` (parsed payload, or a raised transport/parse
error). -/
def call_openai_goal_suggestions (api_key : String)
    (remote : Except String GoalPayload) : Except String GoalPayload :=
  if pyStrip api_key = "" then Except.error "OPENAI_API_KEY is not set" else remote

/-- Embeds `generate_goal_suggestions` (lines 244-251): any exception from the
primary call is caught and answered with the local fallback. -/
def generate_goal_suggestions (m : Record) (api_key : String)
    (remote : Except String GoalPayload) : GoalPayload :=
  match call_openai_goal_suggestions api_key remote with
  | Except.ok p => { p with source := "openai" }
  | Except.error _ => fallback_goal_suggestions m

/-! ### Local datetimes

Python `datetime` values appearing in `extract_event_window` and
`create_google_calendar_event` always have zero seconds and microseconds,
so a local datetime is `(year, month, day, hour, minute)` wall-clock
fields.  Day arithmetic uses the standard Gregorian civil-date conversions
(Howard Hinnant's `civil_from_days` / `days_from_civil`). -/

structure LocalDT where
  year : Int
  month : Int
  day : Int
  hour : Int
  minute : Int
deriving DecidableEq, Repr

/-- Gregorian civil date from days since 1970-01-01. -/
def civilFromDays (z0 : Int) : Int × Int × Int :=
  let z := z0 + 719468
  let era := Int.fdiv z 146097
  let doe := z - era * 146097
  let yoe := Int.fdiv (doe - Int.fdiv doe 1460 + Int.fdiv doe 36524 - Int.fdiv doe 146096) 365
  let y := yoe + era * 400
  let doy := doe - (365 * yoe + Int.fdiv yoe 4 - Int.fdiv yoe 100)
  let mp := Int.fdiv (5 * doy + 2) 153
  let d := doy - Int.fdiv (153 * mp + 2) 5 + 1
  let m := mp + (if mp < 10 then 3 else -9)
  (y + (if m ≤ 2 then 1 else 0), m, d)

/-- Days since 1970-01-01 of a Gregorian civil date. -/
def daysFromCivil (y m d : Int) : Int :=
  let y1 := if m ≤ 2 then y - 1 else y
  let era := Int.fdiv y1 400
  let yoe := y1 - era * 400
  let doy := Int.fdiv (153 * (m + (if m > 2 then -3 else 9)) + 2) 5 + d - 1
  let doe := yoe * 365 + Int.fdiv yoe 4 - Int.fdiv yoe 100 + doy
  era * 146097 + doe - 719468

/-- Minutes since the local epoch 1970-01-01T00:00 of a local datetime. -/
def dtToMinutes (t : LocalDT) : Int :=
  daysFromCivil t.year t.month t.day * 1440 + t.hour * 60 + t.minute

/-- Local datetime from minutes since the local epoch. -/
def dtOfMinutes (x : Int) : LocalDT :=
  let days := Int.fdiv x 1440
  let rem := x - days * 1440
  let c := civilFromDays days
  ⟨c.1, c.2.1, c.2.2, Int.fdiv rem 60, rem % 60⟩

/-- Python `dt + timedelta(minutes=k)` on a fixed-offset local datetime. -/
def addMinutes (t : LocalDT) (k : Int) : LocalDT :=
  dtOfMinutes (dtToMinutes t + k)

/-! ### Event window extraction (`extract_event_window`, lines 254-278) -/

def toDigit (c : Char) : Nat := c.toNat - 48

def digits2 : List Char → Option (Nat × List Char)
  | a :: b :: rest =>
    if a.isDigit && b.isDigit then some (toDigit a * 10 + toDigit b, rest) else none
  | _ => none

def digits4 : List Char → Option (Nat × List Char)
  | a :: b :: c :: d :: rest =>
    if a.isDigit && b.isDigit && c.isDigit && d.isDigit then
      some (((toDigit a * 10 + toDigit b) * 10 + toDigit c) * 10 + toDigit d, rest)
    else none
  | _ => none

/-- One-digit-hour alternative of `\d{1,2}:\d{2}`. -/
def timeAt1 : List Char → Option (Nat × Nat × Bool)
  | a :: ':' :: c :: d :: _ =>
    if a.isDigit && c.isDigit && d.isDigit then
      some (toDigit a, toDigit c * 10 + toDigit d, false)
    else none
  | _ => none

/-- Matcher for `\d{1,2}:\d{2}` with the greedy two-then-one-digit hour; the Bool
records whether the hour had two digits (`datetime.fromisoformat` of
Python 3.11 rejects one-digit hours). -/
def timeAt (l : List Char) : Option (Nat × Nat × Bool) :=
  match l with
  | a :: b :: ':' :: c :: d :: _ =>
    if a.isDigit && b.isDigit && c.isDigit && d.isDigit then
      some (toDigit a * 10 + toDigit b, toDigit c * 10 + toDigit d, true)
    else timeAt1 l
  | _ => timeAt1 l

/-- Position matcher for `(\d{4}-\d{2}-\d{2})(?:[ T](\d{1,2}:\d{2}))?`
(line 264): the date group, then optionally a space/`T` separator and the
time group. -/
def dateAt (l : List Char) : Option ((Nat × Nat × Nat) × Option (Nat × Nat × Bool)) :=
  match digits4 l with
  | some (y, r1) =>
    match r1 with
    | '-' :: r2 =>
      match digits2 r2 with
      | some (mo, r3) =>
        match r3 with
        | '-' :: r4 =>
          match digits2 r4 with
          | some (d, r5) =>
            let t :=
              match r5 with
              | sep :: r6 => if sep == ' ' || sep == 'T' then timeAt r6 else none
              | [] => none
            some ((y, mo, d), t)
          | none => none
        | _ => none
      | none => none
    | _ => none
  | none => none

/-- Python `re.search` of the date pattern: leftmost match in the text. -/
def firstDateMatch (s : String) : Option ((Nat × Nat × Nat) × Option (Nat × Nat × Bool)) :=
  scanFirst dateAt s.data

def isLeapYear (y : Nat) : Bool :=
  (y % 4 == 0 && y % 100 != 0) || y % 400 == 0

def daysInMonth (y m : Nat) : Nat :=
  if m = 2 then (if isLeapYear y then 29 else 28)
  else if m = 4 ∨ m = 6 ∨ m = 9 ∨ m = 11 then 30
  else 31

/-- Does `datetime.fromisoformat(f"{date_part}T{time_part}")` succeed on the
captured fields?  The hour must have two digits and all fields must be in
range (year 1-9999; the year is four digits so only `0000` can fail high). -/
def fromisoOk (y mo d h mi : Nat) (twoDigitHour : Bool) : Bool :=
  twoDigitHour && decide (1 ≤ y) && decide (1 ≤ mo) && decide (mo ≤ 12) &&
    decide (1 ≤ d) && decide (d ≤ daysInMonth y mo) && decide (h ≤ 23) &&
    decide (mi ≤ 59)

/-- The fallback start (lines 272-275): 09:00 local on the day after the
creation instant, under a fixed timezone offset `tzOff` in minutes.  The
local civil day of the instant is `⌊(ms + tzOff·60000) / 86400000⌋`; with
`createdMs = num/den` (den > 0) that floor equals the integer floor
division below, which keeps the whole computation in `Int`. -/
def nextDay9 (tzOff : Int) (createdMs : ℚ) : LocalDT :=
  dtOfMinutes
    ((Int.fdiv (createdMs.num + tzOff * 60000 * createdMs.den)
        (86400000 * createdMs.den) + 1) * 1440 + 540)

/-- Embeds `extract_event_window` (lines 254-278): the 30-minute window starting at
the first date-pattern match (time defaulting to 09:00), or at 09:00 the day
after `createdAt` when no date occurs; `none` models the `ValueError` from
`datetime.fromisoformat` on out-of-range fields.  `nowMs` is the ambient
clock `time.time() * 1000`, used only when `createdAt` is absent. -/
def extract_event_window (tzOff : Int) (nowMs : ℚ) (m : Record) : Option (LocalDT × LocalDT) :=
  match firstDateMatch m.rawText with
  | some ((y, mo, d), tOpt) =>
    let (h, mi, two) := tOpt.getD (9, 0, true)
    if fromisoOk y mo d h mi two then
      let s : LocalDT := ⟨(y : Int), (mo : Int), (d : Int), (h : Int), (mi : Int)⟩
      some (s, addMinutes s 30)
    else none
  | none =>
    let s := nextDay9 tzOff (m.createdAt.getD nowMs)
    some (s, addMinutes s 30)

/-! ### iCalendar timestamps (`create_google_calendar_event`, lines 281-318) -/

/-- Zero-padded decimal rendering of a non-negative field. -/
def pad (w : Nat) (n : Int) : String :=
  let s := toString n.toNat
  String.mk (List.replicate (w - s.length) '0') ++ s

/-- Python `strftime("%Y%m%dT%H%M%SZ")` on a datetime with zero seconds (both
window endpoints always have zero seconds). -/
def fmtCompactZ (t : LocalDT) : String :=
  pad 4 t.year ++ pad 2 t.month ++ pad 2 t.day ++ "T" ++ pad 2 t.hour ++
    pad 2 t.minute ++ "00Z"

/-- The `DTSTART`/`DTEND` value written by the code (lines 288-289):
`start_dt.astimezone().strftime("%Y%m%dT%H%M%SZ")`.  `astimezone()` without
an argument converts to the SYSTEM LOCAL zone — the very zone `start_dt`
already carries — so the wall-clock fields are unchanged and the LOCAL time
is emitted with a literal `Z` suffix. -/
def dtstart_field (t : LocalDT) : String := fmtCompactZ t

/-- Modelled from the spec: "UTC-normalized timestamps" — the local instant
converted to UTC (subtract the fixed offset) and then formatted. -/
def spec_utc_field (tzOff : Int) (t : LocalDT) : String :=
  fmtCompactZ (addMinutes t (-tzOff))

/-! ### Dispatcher (`run_agent` per-record loop body, lines 436-466)

The loop state holds `state["last_created_at"]`, the persisted id list
`state["processed_ids"]`, and the in-memory Python set `processed_ids`
built at line 436.  A CPython `set` of strings enumerates its elements in
an UNSPECIFIED, hash-seed-dependent order, so the set is modelled as the
list of its elements in some enumeration order and the insertion
`processed_ids.add(...)` is a parameter `ins`; `SetAdd ins` says `ins`
implements set insertion up to permutation.  `insEnd` (append new elements)
and `insFront` (prepend new elements) are two admissible instantiations. -/

structure BatchState where
  lastCreatedAt : ℚ
  pids : List String
  persistedIds : List String
deriving DecidableEq, Repr

/-- One dispatcher step's observable outcome: the successor state, the
names of the executed side-effecting actions, and whether `save_state` ran
(line 466). -/
structure StepLog where
  st : BatchState
  actions : List String
  saved : Bool
deriving DecidableEq, Repr

/-- Embeds `run_custom_actions` (lines 358-409), abstracted to the names of the
actions whose executors run (their payloads are I/O and do not bear on any
claim checked here). -/
def run_custom_actions (m : Record) : List String :=
  (if is_meeting_memory m then ["meeting_to_google_calendar"] else []) ++
    (if is_goal_memory m then ["goal_coaching_suggestions"] else [])

/-- The guard of line 442: `isinstance(memory_id, str) and memory_id in
processed_ids`.  An absent or non-string `_id` (modelled `none`) fails the
`isinstance` test. -/
def seenB (s : BatchState) (m : Record) : Bool :=
  match m.id with
  | some i => s.pids.contains i
  | none => false

/-- Python `lst[-n:]`. -/
def pyLastN (n : Nat) (l : List String) : List String :=
  l.drop (l.length - n)

/-- An insertion function implements `set.add` followed by enumeration when
its result is always a permutation of the would-be insert. -/
def SetAdd (ins : List String → String → List String) : Prop :=
  ∀ l x, (ins l x).Perm (if l.contains x then l else x :: l)

def insEnd (l : List String) (x : String) : List String :=
  if l.contains x then l else l ++ [x]

def insFront (l : List String) (x : String) : List String :=
  if l.contains x then l else x :: l

/-- The body of `for memory in memories` (lines 438-466): compute
`created_at` with the watermark as default; if the id is a string already in
the set, advance the watermark in memory only and `continue`; otherwise run
the custom actions, advance the watermark, insert a string id into the set,
truncate the persisted list to the last 2000 enumerated elements, and save. -/
def processRecord (ins : List String → String → List String)
    (s : BatchState) (m : Record) : StepLog :=
  let created := m.createdAt.getD s.lastCreatedAt
  if seenB s m then
    ⟨{ s with lastCreatedAt := max s.lastCreatedAt created }, [], false⟩
  else
    let pids' :=
      match m.id with
      | some i => ins s.pids i
      | none => s.pids
    ⟨⟨max s.lastCreatedAt created, pids', pyLastN 2000 pids'⟩,
      run_custom_actions m, true⟩

/-- The whole batch loop over a fetched list of records. -/
def processBatch (ins : List String → String → List String)
    (s : BatchState) (ms : List Record) : BatchState :=
  ms.foldl (fun st m => (processRecord ins st m).st) s

/-- A record carrying only an id (all other fields empty/absent); enough
for the checkpoint-state claims. -/
def mkMem (i : String) : Record :=
  ⟨some i, none, "", "", [], [], []⟩

/-- A placeholder successful primary payload (used only to instantiate the
remote outcome in concrete witnesses). -/
def emptyPayload : GoalPayload :=
  ⟨false, "", [], [], "", ""⟩

/-- Distinct record identifiers `""`, `"a"`, `"aa"`, ... (distinct because
their lengths differ). -/
def idOfLen (n : Nat) : String :=
  String.mk (List.replicate n 'a')

/-- Exactly 2001 distinct identifiers, one more than the dedup capacity of 2000. -/
def manyIds : List String :=
  (List.range 2001).map idOfLen

/-- Modelled from the spec: "raw text contains a date pattern YYYY-MM-DD
followed (space- or T-separated) by a time HH:MM" — some position matches
the date pattern with the time group PRESENT. -/
def spec_contains_datetime (s : String) : Bool :=
  (scanFirst
    (fun l =>
      match dateAt l with
      | some (_, some t) => some t
      | _ => none) s.data).isSome

/-! ## Theorems -/

/-- Helper: with a string id `i`, the line-442 guard holds iff `i` is in the
in-memory set. -/
theorem seenB_iff (s : BatchState) (m : Record) (i : String)
    (hid : m.id = some i) : seenB s m = true ↔ i ∈ s.pids := by
  simp only [seenB, hid]
  exact List.elem_iff

/-- Helper: every dispatcher step only raises the watermark. -/
theorem step_watermark_le (ins : List String → String → List String)
    (t : BatchState) (r : Record) :
    t.lastCreatedAt ≤ (processRecord ins t r).st.lastCreatedAt := by
  by_cases hseen : seenB t r <;> simp [processRecord, hseen]

/-- Helper: the watermark never decreases along a batch. -/
theorem processBatch_watermark_le (ins : List String → String → List String) :
    ∀ (ms : List Record) (s : BatchState),
      s.lastCreatedAt ≤ (processBatch ins s ms).lastCreatedAt := by
  intro ms
  induction ms with
  | nil => intro s; simp [processBatch]
  | cons r rest ih =>
    intro s
    calc s.lastCreatedAt ≤ (processRecord ins s r).st.lastCreatedAt :=
          step_watermark_le ins s r
      _ ≤ _ := ih ((processRecord ins s r).st)

/-- Helper: appending unseen elements is an admissible set insertion. -/
theorem setAdd_insEnd : SetAdd insEnd := by
  intro l x
  by_cases hm : x ∈ l
  · simp [insEnd, hm]
  · simp [insEnd, hm, List.perm_append_singleton]

/-- Helper: prepending unseen elements is an admissible set insertion. -/
theorem setAdd_insFront : SetAdd insFront := by
  intro l x
  by_cases hm : x ∈ l <;> simp [insFront, hm]

/-- C1: a record whose string identifier is already in the dedup set is
dispatched with no classification and no action execution: the step only
advances the in-memory watermark to `max(watermark, createdAt)` and leaves
everything else (including the persisted list, with no save) unchanged;
consequently dispatching the same identifier twice runs actions at most
once — the second dispatch executes none. -/
theorem c1_seen_record_skips_side_effects
    (ins : List String → String → List String) (hins : SetAdd ins)
    (s : BatchState) (m : Record) (i : String) (hid : m.id = some i) :
    (i ∈ s.pids →
      processRecord ins s m =
        ⟨⟨max s.lastCreatedAt (m.createdAt.getD s.lastCreatedAt),
          s.pids, s.persistedIds⟩, [], false⟩) ∧
    (processRecord ins (processRecord ins s m).st m).actions = [] := by
  have skipOf : ∀ t : BatchState, i ∈ t.pids →
      (processRecord ins t m).actions = [] := by
    intro t hmem
    have hseen : seenB t m = true := (seenB_iff t m i hid).mpr hmem
    simp [processRecord, hseen]
  constructor
  · intro hmem
    have hseen : seenB s m = true := (seenB_iff s m i hid).mpr hmem
    simp [processRecord, hseen]
  · have hmem1 : i ∈ (processRecord ins s m).st.pids := by
      by_cases hmem : i ∈ s.pids
      · have hseen : seenB s m = true := (seenB_iff s m i hid).mpr hmem
        simpa [processRecord, hseen] using hmem
      · have hseen : seenB s m = false := by
          rw [Bool.eq_false_iff]
          exact fun hc => hmem ((seenB_iff s m i hid).mp hc)
        have hc : s.pids.contains i = false := by
          rw [Bool.eq_false_iff]
          exact fun hc => hmem (List.elem_iff.mp hc)
        have hperm := hins s.pids i
        rw [hc] at hperm
        simp only [Bool.false_eq_true, if_false] at hperm
        have : i ∈ ins s.pids i := hperm.mem_iff.mpr (List.mem_cons_self i s.pids)
        simpa [processRecord, hseen, hid] using this
    exact skipOf _ hmem1

/-- C1 witness at a concrete state and record. -/
theorem c1_seen_record_skips_side_effects_witness :
    (processRecord insEnd ⟨0, ["a"], ["a"]⟩ (mkMem "a") =
      ⟨⟨0, ["a"], ["a"]⟩, [], false⟩) ∧
    (processRecord insEnd
      (processRecord insEnd ⟨0, ["a"], ["a"]⟩ (mkMem "a")).st (mkMem "a")).actions = [] := by
  have h := c1_seen_record_skips_side_effects insEnd setAdd_insEnd
    ⟨0, ["a"], ["a"]⟩ (mkMem "a") "a" rfl
  exact ⟨(h.1 (by decide)).trans (by decide), h.2⟩

/-- C2: for every record, each dispatcher step sets the watermark to
`max(previous watermark, createdAt)` (whether or not the record is
skipped), and over any batch of records the watermark never decreases. -/
theorem c2_watermark_monotone
    (ins : List String → String → List String) (s : BatchState)
    (m : Record) (c : ℚ) (hc : m.createdAt = some c) :
    (processRecord ins s m).st.lastCreatedAt = max s.lastCreatedAt c ∧
    ∀ ms : List Record, s.lastCreatedAt ≤ (processBatch ins s ms).lastCreatedAt := by
  constructor
  · by_cases hseen : seenB s m <;> simp [processRecord, hseen, hc]
  · intro ms
    exact processBatch_watermark_le ins ms s

/-- C2 witness: a concrete record with `createdAt = 5` against watermark 3. -/
theorem c2_watermark_monotone_witness :
    (processRecord insEnd ⟨3, [], []⟩ ⟨some "x", some 5, "", "", [], [], []⟩).st.lastCreatedAt
      = max 3 5 ∧
    (3 : ℚ) ≤ (processBatch insEnd ⟨3, [], []⟩
      [⟨some "x", some 5, "", "", [], [], []⟩]).lastCreatedAt := by
  have h := c2_watermark_monotone insEnd ⟨3, [], []⟩
    ⟨some "x", some 5, "", "", [], [], []⟩ 5 rfl
  exact ⟨h.1, h.2 _⟩

/-- C4 counterexample: a record skipped as already seen does NOT trigger a
checkpoint persist — the claim's "including records that were skipped as
already seen" fails on the very first skipped record. -/
theorem c4_no_persist_on_skip_counterexample :
    (processRecord insEnd ⟨0, ["a"], ["a"]⟩ (mkMem "a")).saved = false := by
  decide

/-- C4 (amended): the checkpoint is persisted after each record exactly when
that record was NOT skipped as already seen; a skipped record advances the
watermark in memory only (so a crash can additionally lose the watermark
advances of a trailing run of skipped records). -/
theorem c4_persist_iff_not_skipped
    (ins : List String → String → List String) (s : BatchState) (m : Record) :
    (processRecord ins s m).saved = !(seenB s m) := by
  by_cases hseen : seenB s m <;> simp [processRecord, hseen]

/-- C10: a record whose identifier is absent (or not a string, which fails
the same `isinstance` test) is never checked against nor inserted into the
dedup set: its actions are executed, the set is unchanged, the watermark
still advances, and dispatching it again executes the actions again. -/
theorem c10_no_string_id_no_dedup
    (ins : List String → String → List String) (s : BatchState) (m : Record)
    (h : m.id = none) :
    (processRecord ins s m).actions = run_custom_actions m ∧
    (processRecord ins s m).st.pids = s.pids ∧
    (processRecord ins s m).st.lastCreatedAt =
      max s.lastCreatedAt (m.createdAt.getD s.lastCreatedAt) ∧
    (processRecord ins (processRecord ins s m).st m).actions = run_custom_actions m := by
  have hseen : ∀ t : BatchState, seenB t m = false := by
    intro t; simp [seenB, h]
  refine ⟨?_, ?_, ?_, ?_⟩ <;> simp [processRecord, hseen, h]

/-- C10 witness: an id-less record matching the scheduling category is
executed on both of two consecutive dispatches. -/
theorem c10_no_string_id_no_dedup_witness :
    (processRecord insEnd ⟨0, [], []⟩ ⟨none, some 1, "standup", "", [], [], []⟩).actions
      = run_custom_actions ⟨none, some 1, "standup", "", [], [], []⟩ ∧
    (processRecord insEnd ⟨0, [], []⟩ ⟨none, some 1, "standup", "", [], [], []⟩).st.pids = [] ∧
    (processRecord insEnd ⟨0, [], []⟩ ⟨none, some 1, "standup", "", [], [], []⟩).st.lastCreatedAt
      = max 0 ((some (1 : ℚ)).getD 0) ∧
    (processRecord insEnd
      (processRecord insEnd ⟨0, [], []⟩ ⟨none, some 1, "standup", "", [], [], []⟩).st
      ⟨none, some 1, "standup", "", [], [], []⟩).actions
      = run_custom_actions ⟨none, some 1, "standup", "", [], [], []⟩ :=
  c10_no_string_id_no_dedup insEnd ⟨0, [], []⟩ ⟨none, some 1, "standup", "", [], [], []⟩ rfl

/-- C5 counterexample: a record whose only content is the word "standup" in
its `people` list.  Under the claim's haystack (which includes all
list-valued fields) the scheduling category matches, but the code's
`is_meeting_memory` never consults `people` and classifies it as not
matching. -/
theorem c5_people_not_consulted_counterexample :
    spec_category_matches meeting_keywords ⟨none, none, "", "", [], [], ["standup"]⟩ = true ∧
    is_meeting_memory ⟨none, none, "", "", [], [], ["standup"]⟩ = false := by
  constructor <;> decide

/-- C5 (amended): a category matches iff one of its keywords occurs
case-insensitively in the concatenation of summary, raw text and topics
(plus tasks for the goal category); the `people` field is never consulted
by either category, and `tasks` is not consulted by the scheduling
category; the record with summary "Standup at 10" matches scheduling. -/
theorem c5_classifier_keyword_match (m : Record) (ps ts : List String) :
    (is_meeting_memory m = true ↔
      ∃ k ∈ meeting_keywords, strContains (meetingHaystack m) k = true) ∧
    (is_goal_memory m = true ↔
      ∃ k ∈ goal_keywords, strContains (goalHaystack m) k = true) ∧
    is_meeting_memory { m with people := ps } = is_meeting_memory m ∧
    is_goal_memory { m with people := ps } = is_goal_memory m ∧
    is_meeting_memory { m with tasks := ts, people := ps } = is_meeting_memory m ∧
    is_meeting_memory ⟨none, none, "Standup at 10", "", [], [], []⟩ = true := by
  refine ⟨?_, ?_, rfl, rfl, rfl, by decide⟩
  · simp [is_meeting_memory, List.any_eq_true]
  · simp [is_goal_memory, List.any_eq_true]

/-- C6: the fallback goal-focus extractor does follow the fixed pattern
order, and "I want to get better at golf" yields "golf"; but the claim's
"improve my putting yields putting" fails — the second pattern is written
in a raw Python string as `improve (?:my|at)?\\s*(...)`, whose `\\s*`
denotes a literal backslash then `s*`, so it can never match backslash-free
text and the input falls through to the default "your goal", contradicting
the example in the source's own comment (line 145). -/
theorem c6_goal_focus_backslash_bug :
    extract_goal_focus "I want to get better at golf" = "golf" ∧
    extract_goal_focus "improve my putting" = "your goal" ∧
    extract_goal_focus "I will learn chess now" = "chess now" ∧
    extract_goal_focus "nothing to see" = "your goal" := by
  refine ⟨by decide, by decide, by decide, by decide⟩

/-- C7: whenever the primary call fails — in particular when the credential
is empty so `call_openai_goal_suggestions` raises before any network use —
the goal strategy returns exactly the deterministic fallback payload, whose
`source` is `"fallback"`, whose `has_goal` is true, and whose suggestion
list is non-empty.  (The strategy is a total function: the fallback path
never raises.) -/
theorem c7_fallback_activation (m : Record) (key : String)
    (r : Except String GoalPayload)
    (h : pyStrip key = "" ∨ ∃ e, r = Except.error e) :
    generate_goal_suggestions m key r = fallback_goal_suggestions m ∧
    (generate_goal_suggestions m key r).source = "fallback" ∧
    (generate_goal_suggestions m key r).has_goal = true ∧
    (generate_goal_suggestions m key r).suggestions ≠ [] := by
  have hgen : generate_goal_suggestions m key r = fallback_goal_suggestions m := by
    rcases h with h | ⟨e, rfl⟩
    · simp [generate_goal_suggestions, call_openai_goal_suggestions, h]
    · by_cases hk : pyStrip key = "" <;>
        simp [generate_goal_suggestions, call_openai_goal_suggestions, hk]
  refine ⟨hgen, ?_, ?_, ?_⟩ <;> rw [hgen]
  · rfl
  · rfl
  · by_cases ht : m.tasks.isEmpty <;> simp [fallback_goal_suggestions, ht]

/-- C7 witness: empty credential on a concrete record. -/
theorem c7_fallback_activation_witness :
    generate_goal_suggestions (mkMem "m1") "" (Except.ok emptyPayload) =
      fallback_goal_suggestions (mkMem "m1") ∧
    (generate_goal_suggestions (mkMem "m1") "" (Except.ok emptyPayload)).source = "fallback" ∧
    (generate_goal_suggestions (mkMem "m1") "" (Except.ok emptyPayload)).has_goal = true ∧
    (generate_goal_suggestions (mkMem "m1") "" (Except.ok emptyPayload)).suggestions ≠ [] :=
  c7_fallback_activation (mkMem "m1") "" (Except.ok emptyPayload) (Or.inl rfl)

/-- C9: the DTSTART/DTEND fields are NOT UTC-normalized.  On a system with
offset UTC+02:00 and local start 2024-05-01T14:00, the code emits
`20240501T140000Z` (the local wall time with a `Z` suffix, because
`astimezone()` without an argument converts to the local zone the value
already carries), while the claimed UTC conversion is `20240501T120000Z`. -/
theorem c9_timestamps_local_not_utc :
    dtstart_field ⟨2024, 5, 1, 14, 0⟩ = "20240501T140000Z" ∧
    spec_utc_field 120 ⟨2024, 5, 1, 14, 0⟩ = "20240501T120000Z" ∧
    dtstart_field ⟨2024, 5, 1, 14, 0⟩ ≠ spec_utc_field 120 ⟨2024, 5, 1, 14, 0⟩ := by
  refine ⟨by decide, by decide, by decide⟩

/-- Helper: identifiers of distinct lengths are distinct. -/
theorem idOfLen_injective : Function.Injective idOfLen := by
  intro a b h
  have h2 : List.replicate a 'a' = List.replicate b 'a' := congrArg String.data h
  have h3 := congrArg List.length h2
  simpa using h3

/-- Helper: Python `l[-n:]` keeps at most `n` elements. -/
theorem pyLastN_length_le (n : Nat) (l : List String) :
    (pyLastN n l).length ≤ n := by
  simp only [pyLastN, List.length_drop]
  omega

/-- Helper: feeding a batch of fresh, pairwise-distinct ids through the
dispatcher under the front-insertion enumeration leaves the in-memory set
enumerated newest-first. -/
theorem batch_insFront_pids :
    ∀ (ids : List String) (s : BatchState), ids.Nodup →
      (∀ i ∈ ids, i ∉ s.pids) →
      (processBatch insFront s (ids.map mkMem)).pids = ids.reverse ++ s.pids := by
  intro ids
  induction ids with
  | nil => intro s _ _; simp [processBatch]
  | cons x rest ih =>
    intro s hnd hfresh
    have hx : x ∉ s.pids := hfresh x (List.mem_cons_self x rest)
    have hseen : seenB s (mkMem x) = false := by
      rw [Bool.eq_false_iff]
      exact fun hc => hx ((seenB_iff s (mkMem x) x rfl).mp hc)
    have hstep : (processRecord insFront s (mkMem x)).st.pids = x :: s.pids := by
      have hid : (mkMem x).id = some x := rfl
      have hins : insFront s.pids x = x :: s.pids := by simp [insFront, hx]
      simp [processRecord, hseen, hid, hins]
    have hrest := ih (processRecord insFront s (mkMem x)).st
      (List.nodup_cons.mp hnd).2
      (by
        intro i hi
        rw [hstep]
        rcases List.nodup_cons.mp hnd with ⟨hxr, _⟩
        intro hmem
        rcases List.mem_cons.mp hmem with h1 | h1
        · exact hxr (h1 ▸ hi)
        · exact hfresh i (List.mem_cons_of_mem x hi) h1)
    calc (processBatch insFront s ((x :: rest).map mkMem)).pids
        = (processBatch insFront (processRecord insFront s (mkMem x)).st
            (rest.map mkMem)).pids := by simp [processBatch]
      _ = rest.reverse ++ (processRecord insFront s (mkMem x)).st.pids := hrest
      _ = (x :: rest).reverse ++ s.pids := by
            rw [hstep]; simp [List.reverse_cons, List.append_assoc]

/-- Helper: under the same conditions, the persisted list after a non-empty
batch is the last 2000 elements of that newest-first enumeration. -/
theorem batch_insFront_persisted :
    ∀ (ids : List String) (s : BatchState), ids ≠ [] → ids.Nodup →
      (∀ i ∈ ids, i ∉ s.pids) →
      (processBatch insFront s (ids.map mkMem)).persistedIds
        = pyLastN 2000 (ids.reverse ++ s.pids) := by
  intro ids
  induction ids with
  | nil => intro s hne; exact absurd rfl hne
  | cons x rest ih =>
    intro s _ hnd hfresh
    have hx : x ∉ s.pids := hfresh x (List.mem_cons_self x rest)
    have hseen : seenB s (mkMem x) = false := by
      rw [Bool.eq_false_iff]
      exact fun hc => hx ((seenB_iff s (mkMem x) x rfl).mp hc)
    have hid : (mkMem x).id = some x := rfl
    have hins : insFront s.pids x = x :: s.pids := by simp [insFront, hx]
    have hstep : (processRecord insFront s (mkMem x)).st.pids = x :: s.pids := by
      simp [processRecord, hseen, hid, hins]
    have hstepP : (processRecord insFront s (mkMem x)).st.persistedIds
        = pyLastN 2000 (x :: s.pids) := by
      simp [processRecord, hseen, hid, hins]
    have hbatch : processBatch insFront s ((x :: rest).map mkMem)
        = processBatch insFront (processRecord insFront s (mkMem x)).st
            (rest.map mkMem) := by simp [processBatch]
    rcases eq_or_ne rest [] with hre | hre
    · subst hre
      rw [hbatch]
      simpa [processBatch] using hstepP
    · have hrest := ih (processRecord insFront s (mkMem x)).st hre
        (List.nodup_cons.mp hnd).2
        (by
          intro i hi
          rw [hstep]
          rcases List.nodup_cons.mp hnd with ⟨hxr, _⟩
          intro hmem
          rcases List.mem_cons.mp hmem with h1 | h1
          · exact hxr (h1 ▸ hi)
          · exact hfresh i (List.mem_cons_of_mem x hi) h1)
      rw [hbatch, hrest, hstep]
      simp [List.reverse_cons, List.append_assoc]

/-- C3 counterexample: the claim's "oldest evicted first" depends on the
enumeration order of a CPython `set` of strings, which is hash-seed
dependent and unspecified.  Under the admissible enumeration `insFront`
(`SetAdd insFront` holds), after 2001 distinct fresh identifiers the OLDEST
identifier `idOfLen 0` is still in the persisted list while the NEWEST
identifier `idOfLen 2000` is the one evicted — the opposite of the claim. -/
theorem c3_eviction_order_counterexample :
    SetAdd insFront ∧
    idOfLen 0 ∈ (processBatch insFront ⟨0, [], []⟩ (manyIds.map mkMem)).persistedIds ∧
    idOfLen 2000 ∉ (processBatch insFront ⟨0, [], []⟩ (manyIds.map mkMem)).persistedIds ∧
    (processBatch insFront ⟨0, [], []⟩ (manyIds.map mkMem)).persistedIds.length = 2000 := by
  have hnd : manyIds.Nodup :=
    (List.nodup_range 2001).map idOfLen_injective
  have hpers : (processBatch insFront ⟨0, [], []⟩ (manyIds.map mkMem)).persistedIds
      = pyLastN 2000 manyIds.reverse := by
    have := batch_insFront_persisted manyIds ⟨0, [], []⟩
      (by simp [manyIds]) hnd (by simp)
    simpa using this
  have hrev : manyIds.reverse = idOfLen 2000 :: (List.range 2000).reverse.map idOfLen := by
    simp only [manyIds, ← List.map_reverse]
    rw [List.range_succ]
    simp
  have hdrop : pyLastN 2000 manyIds.reverse = (List.range 2000).reverse.map idOfLen := by
    rw [hrev]
    have hlen : (idOfLen 2000 :: (List.range 2000).reverse.map idOfLen).length = 2001 := by
      simp
    simp [pyLastN, hlen]
  rw [hpers, hdrop]
  refine ⟨setAdd_insFront, ?_, ?_, ?_⟩
  · exact List.mem_map_of_mem idOfLen (by simp)
  · intro hmem
    rcases List.mem_map.mp hmem with ⟨n, hn, heq⟩
    have : n = 2000 := idOfLen_injective heq
    subst this
    simp at hn
  · simp

/-- C3 (amended): the persisted dedup list `processed_ids` never exceeds
2000 entries, for every admissible set-insertion behaviour and every batch;
which entries are evicted beyond the bound is unspecified (it follows the
set's enumeration order, not insertion order). -/
theorem c3_dedup_bounded (ins : List String → String → List String)
    (s : BatchState) (ms : List Record)
    (h : s.persistedIds.length ≤ 2000) :
    (processBatch ins s ms).persistedIds.length ≤ 2000 := by
  induction ms generalizing s with
  | nil => simpa [processBatch] using h
  | cons m rest ih =>
    have hstep : (processRecord ins s m).st.persistedIds.length ≤ 2000 := by
      by_cases hseen : seenB s m
      · simpa [processRecord, hseen] using h
      · rcases hm : m.id with _ | i
        · simpa [processRecord, hseen, hm] using pyLastN_length_le 2000 s.pids
        · simpa [processRecord, hseen, hm] using pyLastN_length_le 2000 (ins s.pids i)
    have hbatch : processBatch ins s (m :: rest)
        = processBatch ins (processRecord ins s m).st rest := by
      simp [processBatch]
    rw [hbatch]
    exact ih _ hstep

/-- C3 witness for the amended bound at a concrete batch. -/
theorem c3_dedup_bounded_witness :
    (processBatch insEnd ⟨0, [], []⟩ [mkMem "a", mkMem "b"]).persistedIds.length ≤ 2000 :=
  c3_dedup_bounded insEnd ⟨0, [], []⟩ [mkMem "a", mkMem "b"] (by decide)

/-- C8 counterexample: `re.search` commits to the FIRST `YYYY-MM-DD`
occurrence, whose time component is optional.  The text
`"1111-11-11 x 2024-05-01 14:00"` does contain a date followed by a time
(the claim's premise), yet the synthesized event starts at
1111-11-11T09:00, not at 2024-05-01T14:00. -/
theorem c8_first_match_precedence_counterexample :
    spec_contains_datetime "1111-11-11 x 2024-05-01 14:00" = true ∧
    extract_event_window 0 0 ⟨none, some 0, "", "1111-11-11 x 2024-05-01 14:00", [], [], []⟩
      = some (⟨1111, 11, 11, 9, 0⟩, ⟨1111, 11, 11, 9, 30⟩) ∧
    (⟨1111, 11, 11, 9, 0⟩ : LocalDT) ≠ ⟨2024, 5, 1, 14, 0⟩ := by
  refine ⟨by decide, by decide, by decide⟩

/-- C8 (amended): the event window is determined by the FIRST date-pattern
match in the raw text, with every case covered.  When that first match
carries a time whose captured fields pass the `fromisoformat` validity
check (which requires a two-digit hour), the event starts at that local
date/time; when the first match carries no time and the date with the
default 09:00 is valid, the event starts at 09:00 on that matched date;
when the first match's captured fields are invalid (e.g. month 13, or a
one-digit hour), `datetime.fromisoformat` raises and no event window is
produced at all; and when no date pattern occurs, the event starts at
09:00 local on the day after the record's creation timestamp.  Whenever a
window is produced, it ends exactly 30 minutes after it starts. -/
theorem c8_event_window_amended (tz : Int) (now : ℚ) (m : Record)
    (y mo d h mi : Nat) (two : Bool) :
    (firstDateMatch m.rawText = some ((y, mo, d), some (h, mi, two)) →
      fromisoOk y mo d h mi two = true →
      extract_event_window tz now m =
        some (⟨y, mo, d, h, mi⟩, addMinutes ⟨y, mo, d, h, mi⟩ 30)) ∧
    (firstDateMatch m.rawText = some ((y, mo, d), none) →
      fromisoOk y mo d 9 0 true = true →
      extract_event_window tz now m =
        some (⟨y, mo, d, 9, 0⟩, addMinutes ⟨y, mo, d, 9, 0⟩ 30)) ∧
    (firstDateMatch m.rawText = some ((y, mo, d), some (h, mi, two)) →
      fromisoOk y mo d h mi two = false →
      extract_event_window tz now m = none) ∧
    (firstDateMatch m.rawText = some ((y, mo, d), none) →
      fromisoOk y mo d 9 0 true = false →
      extract_event_window tz now m = none) ∧
    (firstDateMatch m.rawText = none →
      extract_event_window tz now m =
        some (nextDay9 tz (m.createdAt.getD now),
          addMinutes (nextDay9 tz (m.createdAt.getD now)) 30)) := by
  refine ⟨?_, ?_, ?_, ?_, ?_⟩
  · intro h1 h2
    simp [extract_event_window, h1, h2]
  · intro h1 h2
    simp [extract_event_window, h1, h2]
  · intro h1 h2
    simp [extract_event_window, h1, h2]
  · intro h1 h2
    simp [extract_event_window, h1, h2]
  · intro h1
    simp [extract_event_window, h1]

/-- C8 witness, one concrete record per case of the amended claim: text
holding `2024-05-01 14:00` yields the 14:00-14:30 window on that date;
text holding the bare date `2024-07-09` yields 09:00-09:30 on that date;
text whose first match is the invalid `2024-13-01 10:00` yields no window
(`fromisoformat` raises); and a record with no date and creation timestamp
1714500000000 ms (2024-04-30T20:40 at UTC+02:00) yields
2024-05-01T09:00-09:30 local. -/
theorem c8_event_window_amended_witness :
    extract_event_window 0 0
        ⟨none, some 1714000000000, "s", "sync at 2024-05-01 14:00", [], [], []⟩
      = some (⟨2024, 5, 1, 14, 0⟩, ⟨2024, 5, 1, 14, 30⟩) ∧
    extract_event_window 0 0
        ⟨none, some 1714000000000, "", "due 2024-07-09", [], [], []⟩
      = some (⟨2024, 7, 9, 9, 0⟩, ⟨2024, 7, 9, 9, 30⟩) ∧
    extract_event_window 0 0
        ⟨none, some 1714000000000, "", "on 2024-13-01 10:00", [], [], []⟩
      = none ∧
    extract_event_window 120 0
        ⟨none, some 1714500000000, "", "no date here", [], [], []⟩
      = some (⟨2024, 5, 1, 9, 0⟩, ⟨2024, 5, 1, 9, 30⟩) :=
  ⟨((c8_event_window_amended 0 0
      ⟨none, some 1714000000000, "s", "sync at 2024-05-01 14:00", [], [], []⟩
      2024 5 1 14 0 true).1 (by decide) (by decide)).trans (by decide),
   ((c8_event_window_amended 0 0
      ⟨none, some 1714000000000, "", "due 2024-07-09", [], [], []⟩
      2024 7 9 14 0 true).2.1 (by decide) (by decide)).trans (by decide),
   (c8_event_window_amended 0 0
      ⟨none, some 1714000000000, "", "on 2024-13-01 10:00", [], [], []⟩
      2024 13 1 10 0 true).2.2.1 (by decide) (by decide),
   ((c8_event_window_amended 120 0
      ⟨none, some 1714500000000, "", "no date here", [], [], []⟩
      2024 5 1 14 0 true).2.2.2.2 (by decide)).trans (by decide)⟩

end ConvexAgent
